import Mathlib

/-!
Verification of the vendor-contact enrichment pipeline in
`find_business_address.py` (gnuCash_Importers).

The Python source is shallowly embedded: external systems (the Nominatim
geocoder, the Places text-search and details endpoints, and the HTTP page
fetch used by the email scraper) are modelled as oracle functions collected
in an `Env` structure; one `Env` describes the behaviour of the outside
world during one pipeline run.  Python string primitives used by the code
(`str.split` with a non-empty separator, `str.strip`, `str.startswith`,
`str.join`, truthiness of optional strings) are given executable list-based
models, and `urllib.parse.urlparse` is modelled to the extent the code
observes it (the `scheme` and `netloc` components).
-/

namespace VendorLocator

/-- ASCII whitespace stripped by Python `str.strip()` (the Unicode cases are
irrelevant to this development). -/
def isPySpace (c : Char) : Bool :=
  c == ' ' || c == '\t' || c == '\n' || c == '\r' || c == '\x0b' || c == '\x0c'

/-- Model of Python `str.strip()`: drop leading and trailing whitespace. -/
def pyStrip (s : String) : String :=
  String.mk (((s.data.dropWhile isPySpace).reverse.dropWhile isPySpace).reverse)

/-- Split a character list at the first occurrence of the (non-empty)
separator `sep`: `splitFirst sep s = some (u, v)` when `s = u ++ sep ++ v`
and `sep` does not occur earlier.  Returns `none` when `sep` does not occur
in `s`.  Helper for the model of Python `str.split`. -/
def splitFirst (sep : List Char) : List Char → Option (List Char × List Char)
  | [] => none
  | c :: cs =>
    if sep.isPrefixOf (c :: cs) then some ([], (c :: cs).drop sep.length)
    else
      match splitFirst sep cs with
      | some (u, v) => some (c :: u, v)
      | none => none

/-- Fuel-indexed worker for `pySplit`; with fuel `s.length + 1` it never
runs out for a non-empty separator, so `pySplit` below is extensionally
Python `str.split`. -/
def pySplitFuel : Nat → List Char → List Char → List (List Char)
  | 0, _, s => [s]
  | n + 1, sep, s =>
    match splitFirst sep s with
    | none => [s]
    | some (u, v) => u :: pySplitFuel n sep v

/-- Model of Python `str.split(sep)` for a non-empty separator, on character
lists: splits at every non-overlapping leftmost occurrence of `sep`,
keeping empty segments (`"".split(sep) = [""]`, `"aa".split("a") = ["", "", ""]`). -/
def pySplit (sep s : List Char) : List (List Char) :=
  pySplitFuel (s.length + 1) sep s

/-- Model of Python `s.split(sep)` on strings. -/
def pySplitStr (s sep : String) : List String :=
  (pySplit sep.data s.data).map String.mk

/-- Model of Python `s.startswith(p)`, also of the CSS attribute selector
`[href^=p]` used through BeautifulSoup. -/
def pyStartsWith (s p : String) : Bool :=
  p.data.isPrefixOf s.data

/-- Python truthiness of an optional string: `None` and `""` are falsy. -/
def truthy : Option String → Bool
  | none => false
  | some s => !(s == "")

/-- Python `a or b` where `a` is an optional string and `b` a string
(as in `contact.phone or row.get('phone', '')`). -/
def pyOrS (a : Option String) (b : String) : String :=
  match a with
  | none => b
  | some s => if s == "" then b else s

/-- Python `a or b` on two optional strings (as in the API-key resolution
chain `google_api_key or os.getenv(...) or os.getenv(...)`). -/
def pyOrOpt (a b : Option String) : Option String :=
  if truthy a then a else b

/-! ## Model of `urllib.parse.urlparse` (scheme and netloc components)

`_clean_domain` only reads `parts.scheme` and `parts.netloc`, so only those
are modelled, following CPython's `urlsplit`: leading C0-control/space
characters are stripped (the WHATWG lstrip), tab/CR/LF characters are
removed, a scheme is recognised when a `:` occurs at a positive index and
everything before it is a valid scheme string (ASCII letter first, then
letters, digits, `+`, `-`, `.`), and the netloc is the text between a
leading `//` and the next `/`, `?` or `#`.  Crucially, `urlsplit` RAISES
`ValueError("Invalid IPv6 URL")` when that netloc contains an unbalanced
square bracket; the model returns `none` there.  (The 3.11+ validation of
the content of a *balanced* bracketed host is version-dependent and not
modelled.) -/

/-- Characters allowed in a URL scheme (CPython `scheme_chars`). -/
def isSchemeChar (c : Char) : Bool :=
  c.isAlphanum || c == '+' || c == '-' || c == '.'

/-- A C0 control character or the space character (codepoints 0x00-0x20);
CPython `urlsplit` lstrips these from the URL before parsing. -/
def isC0ControlOrSpace (c : Char) : Bool :=
  c.toNat ≤ 0x20

/-- CPython `urlsplit` removes every tab, CR and LF before parsing. -/
def removeUnsafeUrlChars (l : List Char) : List Char :=
  l.filter (fun c => !(c == '\t' || c == '\r' || c == '\n'))

/-- Split off the (lowercased) scheme: returns `(scheme, remainder)`;
the scheme is `[]` when the URL has none. -/
def schemeSplit (l : List Char) : List Char × List Char :=
  let i := l.findIdx (fun c => c == ':')
  if 0 < i ∧ i < l.length then
    if (l.headD ' ').isAlpha && (l.take i).all isSchemeChar then
      ((l.take i).map Char.toLower, l.drop (i + 1))
    else ([], l)
  else ([], l)

/-- Extract the netloc from the post-scheme remainder: the characters
between a leading `//` and the first `/`, `?` or `#`; empty when the
remainder does not start with `//`.  Returns `none` — modelling CPython's
`ValueError("Invalid IPv6 URL")` — when the extracted netloc contains a
`'['` without a `']'` or a `']'` without a `'['`. -/
def netlocOf (l : List Char) : Option (List Char) :=
  if ['/', '/'].isPrefixOf l then
    let netloc := (l.drop 2).takeWhile (fun c => !(c == '/' || c == '?' || c == '#'))
    if (netloc.contains '[' && !(netloc.contains ']')) ||
        (netloc.contains ']' && !(netloc.contains '[')) then none
    else some netloc
  else some []

/-- The `(scheme, netloc)` components of `urlparse(url)`; `none` models the
`ValueError` raised on an unbalanced square bracket in the netloc. -/
def urlSchemeNetloc (url : String) : Option (String × String) :=
  let l := removeUnsafeUrlChars (url.data.dropWhile isC0ControlOrSpace)
  let p := schemeSplit l
  match netlocOf p.2 with
  | none => none
  | some netloc => some (String.mk p.1, String.mk netloc)

/-- Embedding of `_clean_domain`: strip everything after the domain,
`f"{parts.scheme}://{parts.netloc}"`.  `none` models the `ValueError`
that `urlparse` itself can raise (propagated out of `_clean_domain`). -/
def _clean_domain (raw_url : String) : Option String :=
  match urlSchemeNetloc raw_url with
  | none => none
  | some p => some (p.1 ++ "://" ++ p.2)

/-! ## Data model and external-world oracles -/

/-- Embedding of the pydantic model `VendorContact`. -/
structure VendorContact where
  name : String
  address : Option String := none
  phone : Option String := none
  email : Option String := none
  website : Option String := none
  deriving DecidableEq, Repr

/-- An anchor point returned by the geocoder.  The pipeline never inspects
the coordinate values (they only shape outbound requests, which the search
oracle absorbs), so the float pair is abstracted to an integer pair. -/
structure Coords where
  lat : Int
  lng : Int
  deriving DecidableEq, Repr

/-- One candidate object in the text-search `results` list; `place_id := none`
models a candidate whose `"place_id"` key is missing (indexing it raises
`KeyError` in the source). -/
structure PlaceItem where
  place_id : Option String
  deriving DecidableEq, Repr

/-- Outcome of the text-search stage for one vendor name: `raised` models any
exception out of `requests.get` / `raise_for_status` / `.json()`; `items`
is the parsed `"results"` list (defaulted to `[]` when the key is absent). -/
inductive SearchOutcome where
  | raised
  | items (l : List PlaceItem)
  deriving DecidableEq, Repr

/-- Outcome of the details stage for one place id: `raised` models any
exception out of the request or JSON decoding (including a non-string field
value making the pydantic constructor fail); `result` carries the three
requested fields, each possibly absent. -/
inductive DetailsOutcome where
  | raised
  | result (formatted_address formatted_phone_number website : Option String)
  deriving DecidableEq, Repr

/-- Outcome of fetching a website for the email scrape: `raised` models a
fetch failure, timeout or non-success status (`raise_for_status`); `page`
carries the `href` attributes of the page's anchor elements in document
order. -/
inductive ScrapeOutcome where
  | raised
  | page (hrefs : List String)
  deriving DecidableEq, Repr

/-- The external world for one pipeline run: the two environment variables
consulted for the API key, and the geocoder, text-search, details and
page-fetch behaviours.  Search outcomes are indexed by vendor name (the
anchor point, radius and key are fixed for the run and absorbed into the
oracle), details outcomes by place id, fetch outcomes by URL. -/
structure Env where
  GOOGLE_PLACES_API_KEY : Option String
  GOOGLE_API_KEY : Option String
  geocode : String → Option Coords
  search : String → SearchOutcome
  details : String → DetailsOutcome
  scrape : String → ScrapeOutcome

/-- The two fatal errors of the pipeline preamble: a missing API key
(`EnvironmentError`) and a failed anchor-point geocode (`ValueError`). -/
inductive PipelineError where
  | configurationError
  | resolutionError
  deriving DecidableEq, Repr

/-- Embedding of `_extract_email_from_website`: fetch the page, take the
first anchor whose `href` starts with `"mailto:"`, and return
`link["href"].split("mailto:")[1].split("?")[0]`.  Every failure path
(modelled by `ScrapeOutcome.raised`) and the no-anchor case yield `none`.
The `getD 1` default is unreachable: the `startsWith` guard forces at least
two split segments, so the `[1]` indexing in the source cannot raise. -/
def _extract_email_from_website (env : Env) (url : String) : Option String :=
  match env.scrape url with
  | .raised => none
  | .page hrefs =>
    match hrefs.find? (fun h => pyStartsWith h "mailto:") with
    | none => none
    | some link =>
      some ((pySplitStr ((pySplitStr link "mailto:").getD 1 "") "?").headD "")

/-- The API-key resolution chain of `find_vendor_contacts`:
`google_api_key or os.getenv("GOOGLE_PLACES_API_KEY") or os.getenv("GOOGLE_API_KEY")`. -/
def resolveApiKey (env : Env) (google_api_key : Option String) : Option String :=
  pyOrOpt (pyOrOpt google_api_key env.GOOGLE_PLACES_API_KEY) env.GOOGLE_API_KEY

/-- The shared continuation of the per-name loop body once `clean_site`
has been computed without raising: build the `VendorContact` and, when its
website is truthy, attach the scraped email. -/
def finishContact (env : Env) (name : String)
    (addr phone clean_site : Option String) : VendorContact :=
  let contact : VendorContact :=
    { name := name, address := addr, phone := phone, website := clean_site }
  if truthy contact.website then
    { contact with email := _extract_email_from_website env (contact.website.getD "") }
  else contact

/-- The body of the per-name loop of `find_vendor_contacts`: text search,
details fetch, website canonicalisation and conditional email scrape, with
the surrounding `except Exception` converting any raised failure into the
empty contact `VendorContact(name=name)`.  In
`clean_site = _clean_domain(raw_site) if raw_site else None` the call to
`_clean_domain` can itself raise (`urlparse`'s `ValueError` on an
unbalanced bracket); that raise is caught by the same per-name handler, so
the vendor degrades to the empty contact and the scraper never runs. -/
def lookupOne (env : Env) (name : String) : VendorContact :=
  match env.search name with
  | .raised => { name := name }
  | .items [] => { name := name }
  | .items (item :: _) =>
    match item.place_id with
    | none => { name := name }
    | some pid =>
      match env.details pid with
      | .raised => { name := name }
      | .result addr phone site =>
        if truthy site then
          match _clean_domain (site.getD "") with
          | none => { name := name }
          | some cs => finishContact env name addr phone (some cs)
        else finishContact env name addr phone none

/-- Python dict assignment `d[k] = v` on an insertion-ordered association
list: replace in place when the key is present, append otherwise. -/
def dictInsert : List (String × VendorContact) → String → VendorContact → List (String × VendorContact)
  | [], k, v => [(k, v)]
  | p :: ps, k, v => if p.1 == k then (k, v) :: ps else p :: dictInsert ps k v

/-- Python `d.get(k)` on the association list. -/
def lookupAssoc (l : List (String × VendorContact)) (k : String) : Option VendorContact :=
  (l.find? (fun p => p.1 == k)).map Prod.snd

/-- The accumulation of the `results` dict over the vendor-name loop. -/
def buildResults (env : Env) (names : List String) : List (String × VendorContact) :=
  names.foldl (fun acc n => dictInsert acc n (lookupOne env n)) []

/-- Embedding of `find_vendor_contacts`: resolve the API key (raising
`EnvironmentError` when every source is falsy), geocode the anchor point
(defaulting the location, raising `ValueError` on no match), then run the
per-name loop.  The `radius` parameter only shapes the outbound request and
is absorbed into the search oracle. -/
def find_vendor_contacts (env : Env) (vendor_names : List String)
    (location_str : Option String) (google_api_key : Option String) :
    Except PipelineError (List (String × VendorContact)) :=
  if truthy (resolveApiKey env google_api_key) then
    match env.geocode (location_str.getD "New Albany, Indiana, United States") with
    | none => Except.error PipelineError.resolutionError
    | some _ => Except.ok (buildResults env vendor_names)
  else Except.error PipelineError.configurationError

/-- The dict returned by `_parse_address_components`
(keys `addr1`, `addr2`, `addr4`). -/
structure AddressComponents where
  addr1 : String
  addr2 : String
  addr4 : String
  deriving DecidableEq, Repr

/-- Embedding of `_parse_address_components`: split on `','`, strip each
part; with at least 2 parts the street is `parts[0]`, the country
`parts[-1]` and the middle `', '.join(parts[1:-1])`; otherwise the street
is the whole (unstripped) input and the other components are empty. -/
def _parse_address_components (address : String) : AddressComponents :=
  let parts := (pySplitStr address ",").map pyStrip
  if 2 ≤ parts.length then
    { addr1 := parts.headD ""
      addr2 := String.intercalate ", " ((parts.drop 1).dropLast)
      addr4 := parts.getLastD "" }
  else
    { addr1 := address, addr2 := "", addr4 := "" }

/-- One CSV row as consumed by `process_vendor_csv`: the required columns
are explicit fields; every other column (`id`, `name`, `fax`, `notes`,
`shipname`, ...) is carried verbatim in `extras`.  `company := none` models
a short row whose `company` cell was filled with `None` by `DictReader`. -/
structure Row where
  company : Option String
  addr1 : String
  addr2 : String
  addr3 : String
  addr4 : String
  shipaddr1 : String
  shipaddr2 : String
  shipaddr3 : String
  shipaddr4 : String
  phone : String
  shiphone : String
  email : String
  shipmail : String
  extras : List (String × String)
  deriving DecidableEq, Repr

/-- The per-row merge body of `process_vendor_csv` once a contact has been
found for the row (`contact` is not `None`, so the second `if contact:`
guard is true): the address branch runs only when `contact.address` is
truthy, overwriting `addr1/addr2/addr4`, duplicating them into
`shipaddr1/shipaddr2/shipaddr4` and copying the row's existing `addr3`
into `shipaddr3`; then phone and email are overwritten through Python
`or` with the pre-existing values as fallback. -/
def applyContact (c : VendorContact) (row : Row) : Row :=
  let row1 :=
    if truthy c.address then
      let comps := _parse_address_components (c.address.getD "")
      { row with
          addr1 := comps.addr1
          addr2 := comps.addr2
          addr4 := comps.addr4
          shipaddr1 := comps.addr1
          shipaddr2 := comps.addr2
          shipaddr3 := row.addr3
          shipaddr4 := comps.addr4 }
    else row
  { row1 with
      phone := pyOrS c.phone row1.phone
      shiphone := pyOrS c.phone row1.shiphone
      email := pyOrS c.email row1.email
      shipmail := pyOrS c.email row1.shipmail }

/-- One iteration of the output loop of `process_vendor_csv`:
`contact = contacts.get(row.get('company'))`, and the row is returned
unchanged when no contact exists for it. -/
def mergeRow (contacts : List (String × VendorContact)) (row : Row) : Row :=
  let contact :=
    match row.company with
    | none => none
    | some n => lookupAssoc contacts n
  match contact with
  | none => row
  | some c => applyContact c row

/-- Insertion step of the sort modelling Python `sorted` on strings. -/
def insertSorted (x : String) : List String → List String
  | [] => [x]
  | y :: ys => if x ≤ y then x :: y :: ys else y :: insertSorted x ys

/-- Model of Python `sorted` on a list of strings (insertion sort). -/
def pySorted (l : List String) : List String :=
  l.foldr insertSorted []

/-- Embedding of
`sorted({row['company'] for row in rows if row.get('company')})`:
the deduplicated, sorted list of truthy company names. -/
def companyNames (rows : List Row) : List String :=
  pySorted ((rows.filterMap (fun r => if truthy r.company then r.company else none)).dedup)

/-- Embedding of steps 3-5 of `process_vendor_csv` (name aggregation, batch
lookup, per-row merge); argument parsing and CSV I/O are out of scope. -/
def process_rows (env : Env) (rows : List Row) : Except PipelineError (List Row) :=
  match find_vendor_contacts env (companyNames rows) none none with
  | Except.error e => Except.error e
  | Except.ok contacts => Except.ok (rows.map (mergeRow contacts))

/-- A vendor name's search-or-details stage raised an exception (network
error, parse error, or the `KeyError` of a candidate without `place_id`);
zero candidates is the non-raising empty branch and does not count. -/
def stageFailed (env : Env) (k : String) : Bool :=
  match env.search k with
  | .raised => true
  | .items [] => false
  | .items (item :: _) =>
    match item.place_id with
    | none => true
    | some pid =>
      match env.details pid with
      | .raised => true
      | .result _ _ _ => false

/-! ## Lemmas about the `str.split` model -/

theorem isPrefixOf_append_self : ∀ (l t : List Char), l.isPrefixOf (l ++ t) = true :=
  fun l t => List.isPrefixOf_iff_prefix.mpr ⟨t, rfl⟩

theorem splitFirst_append_self (sep t : List Char) (hsep : sep ≠ []) :
    splitFirst sep (sep ++ t) = some ([], t) := by
  obtain ⟨a, sep', rfl⟩ : ∃ a s', sep = a :: s' := by
    cases sep with
    | nil => exact absurd rfl hsep
    | cons a s' => exact ⟨a, s', rfl⟩
  show splitFirst (a :: sep') ((a :: sep') ++ t) = some ([], t)
  rw [List.cons_append, splitFirst]
  rw [← List.cons_append, isPrefixOf_append_self]
  simp [List.drop_left]

theorem splitFirst_none_iff (sep : List Char) (hsep : sep ≠ []) (s : List Char) :
    splitFirst sep s = none ↔ ¬ ∃ u v, s = u ++ sep ++ v := by
  induction s with
  | nil =>
    constructor
    · rintro - ⟨u, v, huv⟩
      rw [eq_comm, List.append_eq_nil, List.append_eq_nil] at huv
      exact hsep huv.1.2
    · intro _; rfl
  | cons c cs ih =>
    rw [splitFirst]
    by_cases hp : sep.isPrefixOf (c :: cs) = true
    · rw [hp]
      simp only [if_true, reduceCtorEq, false_iff, not_not]
      obtain ⟨t, ht⟩ := List.isPrefixOf_iff_prefix.mp hp
      exact ⟨[], t, by simp [← ht]⟩
    · rw [if_neg hp]
      cases hcs : splitFirst sep cs with
      | some uv =>
        simp only [reduceCtorEq, false_iff, not_not]
        have hne : ¬ splitFirst sep cs = none := by rw [hcs]; exact fun h => Option.noConfusion h
        have hex : ∃ u v, cs = u ++ sep ++ v := by
          by_contra hno
          exact hne (ih.mpr hno)
        obtain ⟨u, v, huv⟩ := hex
        exact ⟨c :: u, v, by simp [huv]⟩
      | none =>
        simp only [true_iff]
        rintro ⟨u, v, huv⟩
        cases u with
        | nil =>
          simp only [List.nil_append] at huv
          rw [huv] at hp
          exact hp (isPrefixOf_append_self sep v)
        | cons x u' =>
          simp only [List.cons_append, List.cons.injEq] at huv
          exact (ih.mp hcs) ⟨u', v, huv.2⟩

theorem pySplitFuel_of_none (sep s : List Char) (h : splitFirst sep s = none) :
    ∀ n, pySplitFuel n sep s = [s]
  | 0 => rfl
  | n + 1 => by simp [pySplitFuel, h]

theorem pySplit_sep_append (sep t : List Char) (hsep : sep ≠ [])
    (h : splitFirst sep t = none) : pySplit sep (sep ++ t) = [[], t] := by
  rw [pySplit, pySplitFuel, splitFirst_append_self sep t hsep]
  show [] :: pySplitFuel (sep ++ t).length sep t = [[], t]
  rw [pySplitFuel_of_none sep t h]

theorem splitFirst_single_none (c : Char) :
    ∀ t, splitFirst [c] t = none → t.takeWhile (fun x => x != c) = t
  | [], _ => rfl
  | x :: xs, h => by
    rw [splitFirst] at h
    by_cases hcx : c == x
    · simp [List.isPrefixOf, hcx] at h
    · have hx : ([c].isPrefixOf (x :: xs)) = false := by
        simp [List.isPrefixOf, List.isPrefixOf_iff_prefix, hcx]
      rw [hx] at h
      simp only [Bool.false_eq_true, if_false] at h
      have hxs : splitFirst [c] xs = none := by
        cases hxs : splitFirst [c] xs with
        | none => rfl
        | some uv => rw [hxs] at h; exact absurd h (by simp)
      have hne : (x != c) = true := by
        simp only [bne_iff_ne, ne_eq]
        intro hxc
        exact hcx (by simp [hxc])
      simp [List.takeWhile, hne, splitFirst_single_none c xs hxs]

theorem splitFirst_single_some (c : Char) :
    ∀ t u v, splitFirst [c] t = some (u, v) → u = t.takeWhile (fun x => x != c)
  | [], u, v, h => by simp [splitFirst] at h
  | x :: xs, u, v, h => by
    rw [splitFirst] at h
    by_cases hcx : c == x
    · have hx : ([c].isPrefixOf (x :: xs)) = true := by
        simp [List.isPrefixOf, hcx]
      rw [hx] at h
      simp only [if_true] at h
      have hu : u = [] := by
        have := h
        simp only [Option.some.injEq, Prod.mk.injEq] at this
        exact this.1.symm
      have hxeq : x = c := by have := eq_of_beq hcx; exact this.symm
      simp [hu, List.takeWhile, hxeq]
    · have hx : ([c].isPrefixOf (x :: xs)) = false := by
        simp [List.isPrefixOf, List.isPrefixOf_iff_prefix, hcx]
      rw [hx] at h
      simp only [Bool.false_eq_true, if_false] at h
      cases hxs : splitFirst [c] xs with
      | none => rw [hxs] at h; exact absurd h (by simp)
      | some uv =>
        rw [hxs] at h
        obtain ⟨u', v'⟩ := uv
        simp only [Option.some.injEq, Prod.mk.injEq] at h
        have hne : (x != c) = true := by
          simp only [bne_iff_ne, ne_eq]
          intro hxc
          exact hcx (by simp [hxc])
        have hrec := splitFirst_single_some c xs u' v' hxs
        simp [← h.1, List.takeWhile, hne, hrec]

theorem pySplit_single_headD (c : Char) (t : List Char) :
    (pySplit [c] t).headD [] = t.takeWhile (fun x => x != c) := by
  cases h : splitFirst [c] t with
  | none =>
    rw [pySplit, pySplitFuel, h, splitFirst_single_none c t h]
    rfl
  | some uv =>
    obtain ⟨u, v⟩ := uv
    rw [pySplit, pySplitFuel, h]
    exact splitFirst_single_some c t u v h

theorem takeWhile_append_of_all {p : Char → Bool} :
    ∀ {l m : List Char}, (∀ x ∈ l, p x = true) →
      (l ++ m).takeWhile p = l ++ m.takeWhile p
  | [], m, _ => rfl
  | x :: l, m, h => by
    have hx : p x = true := h x (by simp)
    have hrec := takeWhile_append_of_all (p := p) (l := l) (m := m)
      (fun y hy => h y (by simp [hy]))
    simp only [List.cons_append, List.takeWhile, hx, List.append_eq, hrec]

/-! ## Sample data used by the witness theorems -/

/-- A sample external world: `"Acme"` resolves fully (address, phone,
website, scrapeable email), `"Beta"` raises at the search stage, and every
other name yields zero candidates. -/
def envEx : Env :=
  { GOOGLE_PLACES_API_KEY := some "key-1"
    GOOGLE_API_KEY := none
    geocode := fun _ => some { lat := 38, lng := -85 }
    search := fun n =>
      if n == "Acme" then SearchOutcome.items [{ place_id := some "pid-acme" }]
      else if n == "Beta" then SearchOutcome.raised
      else SearchOutcome.items []
    details := fun p =>
      if p == "pid-acme" then
        DetailsOutcome.result (some "1 Main St, Springfield, USA") (some "555-0100")
          (some "https://example.com/page?x=1")
      else DetailsOutcome.raised
    scrape := fun u =>
      if u == "https://example.com" then
        ScrapeOutcome.page ["https://example.com/about", "mailto:info@example.com?subject=hi"]
      else ScrapeOutcome.raised }

/-- A sample vendor row with a truthy company name. -/
def rowEx : Row :=
  { company := some "Acme"
    addr1 := "old a1", addr2 := "old a2", addr3 := "Suite 4", addr4 := "old a4"
    shipaddr1 := "old s1", shipaddr2 := "old s2", shipaddr3 := "old s3", shipaddr4 := "old s4"
    phone := "old phone", shiphone := "old shiphone"
    email := "old@old.example", shipmail := "oldship@old.example"
    extras := [("id", "000001"), ("notes", "keep")] }

/-- A sample vendor row whose company cell is the empty string. -/
def rowEmptyCo : Row :=
  { rowEx with company := some "", extras := [("id", "000002")] }

/-- A sample contact carrying an address and phone but no email/website. -/
def contactAddrEx : VendorContact :=
  { name := "Acme", address := some "9 Elm St, Lincoln, USA", phone := some "555-0100" }

/-! ## C4: address decomposition -/

/-- C4: for every input string, `_parse_address_components` splits on `','`
and strips each segment; with at least 2 segments it returns the first
segment as street, the last as country and the interior joined with
`", "` as middle; otherwise it returns the original (unstripped) input as
street with empty middle and country.  It is a total computable function,
so it never fails on any string. -/
theorem parse_address_spec (a : String) :
    (2 ≤ ((pySplitStr a ",").map pyStrip).length →
      _parse_address_components a =
        { addr1 := ((pySplitStr a ",").map pyStrip).headD ""
          addr2 := String.intercalate ", " ((((pySplitStr a ",").map pyStrip).drop 1).dropLast)
          addr4 := ((pySplitStr a ",").map pyStrip).getLastD "" }) ∧
    (((pySplitStr a ",").map pyStrip).length < 2 →
      _parse_address_components a = { addr1 := a, addr2 := "", addr4 := "" }) := by
  constructor
  · intro h
    simp only [_parse_address_components]
    rw [if_pos h]
  · intro h
    simp only [_parse_address_components]
    rw [if_neg (by omega)]

/-- Witness for C4 at the spec's own example address. -/
theorem parse_address_spec_witness :
    _parse_address_components "123 Main St, Springfield, IL 62704, USA" =
      { addr1 := "123 Main St", addr2 := "Springfield, IL 62704", addr4 := "USA" } := by
  have h := (parse_address_spec "123 Main St, Springfield, IL 62704, USA").1 (by decide)
  exact h.trans (by decide)

/-! ## C7: the email scraper never raises -/

theorem headD_map_mk : ∀ (l : List (List Char)),
    ((l.map String.mk).headD "") = String.mk (l.headD [])
  | [] => rfl
  | _ :: _ => rfl

/-- C7: `_extract_email_from_website` never raises to its caller.  A fetch
failure / timeout / non-success status (all modelled by
`ScrapeOutcome.raised`) yields `none`, absence of a mailto anchor yields
`none`, and when the first anchor whose `href` starts with `"mailto:"`
exists, the result is the address portion of the `href` (the text after the
`"mailto:"` marker) with any `'?'`-introduced query suffix stripped. -/
theorem extract_email_total_spec (env : Env) (url : String) :
    (env.scrape url = ScrapeOutcome.raised → _extract_email_from_website env url = none) ∧
    (∀ hrefs, env.scrape url = ScrapeOutcome.page hrefs →
      hrefs.find? (fun h => pyStartsWith h "mailto:") = none →
      _extract_email_from_website env url = none) ∧
    (∀ hrefs link addr q, env.scrape url = ScrapeOutcome.page hrefs →
      hrefs.find? (fun h => pyStartsWith h "mailto:") = some link →
      link.data = "mailto:".data ++ addr ++ q →
      (¬ ∃ u v, addr ++ q = u ++ "mailto:".data ++ v) →
      '?' ∉ addr →
      (q = [] ∨ ∃ r, q = '?' :: r) →
      _extract_email_from_website env url = some (String.mk addr)) := by
  refine ⟨fun h => by simp [_extract_email_from_website, h],
    fun hrefs hs hf => by simp [_extract_email_from_website, hs, hf], ?_⟩
  intro hrefs link addr q hs hf hdata hnoocc hqaddr hqshape
  simp only [_extract_email_from_website, hs, hf]
  congr 1
  have hnone : splitFirst "mailto:".data (addr ++ q) = none :=
    (splitFirst_none_iff "mailto:".data (by decide) (addr ++ q)).mpr hnoocc
  have hsplit1 : pySplitStr link "mailto:" = ["", String.mk (addr ++ q)] := by
    rw [pySplitStr, hdata, List.append_assoc]
    rw [pySplit_sep_append "mailto:".data (addr ++ q) (by decide) hnone]
    rfl
  rw [hsplit1]
  show ((pySplit ['?'] (addr ++ q)).map String.mk).headD "" = String.mk addr
  rw [headD_map_mk]
  congr 1
  rw [pySplit_single_headD]
  rw [takeWhile_append_of_all (fun x hx => by
    simp only [bne_iff_ne, ne_eq]
    intro hxq
    exact hqaddr (hxq ▸ hx))]
  rcases hqshape with h | ⟨r, rfl⟩
  · simp [h]
  · simp [List.takeWhile]

/-- Witness for C7 at a concrete page with a query-carrying mailto anchor. -/
theorem extract_email_total_spec_witness :
    _extract_email_from_website envEx "https://example.com" = some "info@example.com" := by
  have h := (extract_email_total_spec envEx "https://example.com").2.2
    ["https://example.com/about", "mailto:info@example.com?subject=hi"]
    "mailto:info@example.com?subject=hi" "info@example.com".data "?subject=hi".data
    rfl (by decide) rfl
    ((splitFirst_none_iff "mailto:".data (by decide) _).mp (by decide))
    (by decide) (Or.inr ⟨"subject=hi".data, rfl⟩)
  exact h

/-! ## C8: website canonicalisation -/

theorem pyOrS_idem (a : Option String) (x : String) : pyOrS a (pyOrS a x) = pyOrS a x := by
  cases a with
  | none => rfl
  | some s =>
    by_cases h : (s == "") = true
    · simp [pyOrS, h]
    · simp [pyOrS, h]

/-- C3: the record merge is idempotent — applying the merge of the same
contact (address decomposition into `addr1/addr2/addr4` and
`shipaddr1..shipaddr4`, plus the phone/shiphone/email/shipmail overwrites)
twice yields exactly the same record as applying it once. -/
theorem merge_idempotent (c : VendorContact) (row : Row) :
    applyContact c (applyContact c row) = applyContact c row := by
  by_cases ha : truthy c.address = true
  · simp [applyContact, ha, pyOrS_idem]
  · simp [applyContact, ha, pyOrS_idem]

/-- C5: the merge never writes `addr3` (it is preserved exactly), and when
the contact has an address ("has an address" formalised as Python
truthiness: present and non-empty, which is what the source's
`if contact and contact.address:` guard tests) the pre-merge `addr3` is
copied into `shipaddr3`. -/
theorem merge_preserves_addr3 (c : VendorContact) (row : Row) :
    (applyContact c row).addr3 = row.addr3 ∧
    (truthy c.address = true → (applyContact c row).shipaddr3 = row.addr3) := by
  by_cases ha : truthy c.address = true
  · exact ⟨by simp [applyContact, ha], fun _ => by simp [applyContact, ha]⟩
  · exact ⟨by simp [applyContact, ha], fun h => absurd h ha⟩

/-- Witness for C5 with a concrete address-carrying contact. -/
theorem merge_preserves_addr3_witness :
    (applyContact contactAddrEx rowEx).addr3 = rowEx.addr3 ∧
    (applyContact contactAddrEx rowEx).shipaddr3 = rowEx.addr3 :=
  ⟨(merge_preserves_addr3 contactAddrEx rowEx).1,
   (merge_preserves_addr3 contactAddrEx rowEx).2 (by decide)⟩

/-- C6: a text search returning zero candidates yields the empty contact
(only `name` set, `address/phone/email/website` all `none`), and merging
that empty contact into any vendor record returns the record unchanged
(every address, shipping-address, phone and email field keeps its
pre-merge value). -/
theorem empty_contact_merge (env : Env) (name : String) (row : Row)
    (h : env.search name = SearchOutcome.items []) :
    lookupOne env name =
      { name := name, address := none, phone := none, email := none, website := none } ∧
    applyContact (lookupOne env name) row = row := by
  have h1 : lookupOne env name =
      { name := name, address := none, phone := none, email := none, website := none } := by
    simp [lookupOne, h]
  refine ⟨h1, ?_⟩
  rw [h1]
  rfl

/-- Witness for C6: a name with zero candidates in the sample world. -/
theorem empty_contact_merge_witness :
    lookupOne envEx "Nope" =
      { name := "Nope", address := none, phone := none, email := none, website := none } ∧
    applyContact (lookupOne envEx "Nope") rowEx = rowEx :=
  empty_contact_merge envEx "Nope" rowEx rfl

/-! ## Dict and fold lemmas for the orchestrator -/

theorem keys_dictInsert (k : String) (v : VendorContact) (j : String) :
    ∀ d : List (String × VendorContact),
      j ∈ (dictInsert d k v).map Prod.fst ↔ j = k ∨ j ∈ d.map Prod.fst
  | [] => by simp [dictInsert]
  | p :: ps => by
    by_cases hpk : (p.1 == k) = true
    · have hk : p.1 = k := eq_of_beq hpk
      simp [dictInsert, hpk, hk]
    · have := keys_dictInsert k v j ps
      simp only [dictInsert, hpk, Bool.false_eq_true, if_false, List.map_cons, List.mem_cons, this]
      tauto

theorem mem_dictInsert (k : String) (v : VendorContact) (q : String × VendorContact) :
    ∀ d : List (String × VendorContact),
      q ∈ dictInsert d k v → q = (k, v) ∨ q ∈ d
  | [] => by simp [dictInsert]
  | p :: ps => by
    by_cases hpk : (p.1 == k) = true
    · simp only [dictInsert, hpk, if_true, List.mem_cons]
      tauto
    · simp only [dictInsert, hpk, Bool.false_eq_true, if_false, List.mem_cons]
      intro h
      rcases h with h | h
      · exact Or.inr (Or.inl h)
      · rcases mem_dictInsert k v q ps h with h' | h'
        · exact Or.inl h'
        · exact Or.inr (Or.inr h')

theorem lookup_dictInsert_self (k : String) (v : VendorContact) :
    ∀ d : List (String × VendorContact), lookupAssoc (dictInsert d k v) k = some v
  | [] => by simp [dictInsert, lookupAssoc]
  | p :: ps => by
    by_cases hpk : (p.1 == k) = true
    · simp [dictInsert, hpk, lookupAssoc, List.find?]
    · have hpk' : (p.1 == k) = false := by simpa using hpk
      simp only [dictInsert, hpk', Bool.false_eq_true, if_false, lookupAssoc, List.find?_cons,
        cond_false]
      exact lookup_dictInsert_self k v ps

theorem lookup_dictInsert_ne (k j : String) (v : VendorContact) (hjk : ¬ j = k) :
    ∀ d : List (String × VendorContact),
      lookupAssoc (dictInsert d k v) j = lookupAssoc d j
  | [] => by
    have : (k == j) = false := beq_eq_false_iff_ne.mpr (fun h => hjk h.symm)
    simp [dictInsert, lookupAssoc, List.find?, this]
  | p :: ps => by
    by_cases hpk : (p.1 == k) = true
    · have hpj : (p.1 == j) = false := by
        rw [eq_of_beq hpk]
        exact beq_eq_false_iff_ne.mpr (fun h => hjk h.symm)
      have hkj : (k == j) = false := beq_eq_false_iff_ne.mpr (fun h => hjk h.symm)
      simp [dictInsert, hpk, lookupAssoc, List.find?, hpj, hkj]
    · have hpk' : (p.1 == k) = false := by simpa using hpk
      by_cases hpj : (p.1 == j) = true
      · simp [dictInsert, hpk', lookupAssoc, List.find?_cons, hpj]
      · have hpj' : (p.1 == j) = false := by simpa using hpj
        simp only [dictInsert, hpk', Bool.false_eq_true, if_false, lookupAssoc,
          List.find?_cons, hpj', cond_false]
        exact lookup_dictInsert_ne k j v hjk ps

theorem lookupAssoc_eq_none (l : List (String × VendorContact)) (k : String)
    (h : k ∉ l.map Prod.fst) : lookupAssoc l k = none := by
  rw [lookupAssoc, List.find?_eq_none.mpr, Option.map_none']
  intro q hq hbeq
  exact h (List.mem_map.mpr ⟨q, hq, eq_of_beq hbeq⟩)

theorem mem_keys_buildAux (env : Env) (j : String) :
    ∀ (names : List String) (acc : List (String × VendorContact)),
      j ∈ ((names.foldl (fun a n => dictInsert a n (lookupOne env n)) acc).map Prod.fst) ↔
        j ∈ acc.map Prod.fst ∨ j ∈ names
  | [], acc => by simp
  | n :: ns, acc => by
    rw [List.foldl_cons, mem_keys_buildAux env j ns, keys_dictInsert]
    simp only [List.mem_cons]
    tauto

theorem finishContact_name (env : Env) (n : String) (a p w : Option String) :
    (finishContact env n a p w).name = n := by
  simp only [finishContact]
  split <;> rfl

/-- Every branch of the per-name loop body produces a contact carrying the
looked-up name. -/
theorem lookupOne_name (env : Env) (n : String) : (lookupOne env n).name = n := by
  cases hs : env.search n with
  | raised => simp [lookupOne, hs]
  | items l =>
    cases l with
    | nil => simp [lookupOne, hs]
    | cons item rest =>
      cases hpid : item.place_id with
      | none => simp [lookupOne, hs, hpid]
      | some pid =>
        cases hd : env.details pid with
        | raised => simp [lookupOne, hs, hpid, hd]
        | result a p w =>
          simp only [lookupOne, hs, hpid, hd]
          by_cases hts : truthy w = true
          · rw [if_pos hts]
            cases hcd : _clean_domain (w.getD "") with
            | none => rfl
            | some cs => exact finishContact_name env n a p (some cs)
          · rw [if_neg hts]
            exact finishContact_name env n a p none

theorem name_buildAux (env : Env) :
    ∀ (names : List String) (acc : List (String × VendorContact)),
      (∀ q ∈ acc, (q.2).name = q.1) →
      ∀ q ∈ names.foldl (fun a n => dictInsert a n (lookupOne env n)) acc, (q.2).name = q.1
  | [], acc, hacc => hacc
  | n :: ns, acc, hacc => by
    rw [List.foldl_cons]
    refine name_buildAux env ns _ ?_
    intro q hq
    rcases mem_dictInsert n (lookupOne env n) q acc hq with h | h
    · rw [h]
      exact lookupOne_name env n
    · exact hacc q h

theorem lookup_buildAux (env : Env) (k : String) :
    ∀ (names : List String) (acc : List (String × VendorContact)),
      (k ∈ names ∨ lookupAssoc acc k = some (lookupOne env k)) →
      lookupAssoc (names.foldl (fun a n => dictInsert a n (lookupOne env n)) acc) k =
        some (lookupOne env k)
  | [], acc, h => by
    rcases h with h | h
    · simp at h
    · simpa using h
  | n :: ns, acc, h => by
    rw [List.foldl_cons]
    refine lookup_buildAux env k ns _ ?_
    by_cases hkn : k = n
    · right
      rw [hkn, lookup_dictInsert_self]
    · rcases h with h | h
      · rcases List.mem_cons.mp h with h' | h'
        · exact absurd h' hkn
        · exact Or.inl h'
      · right
        rw [lookup_dictInsert_ne n k (lookupOne env n) hkn, h]

/-! ## C1, C2: the orchestrator -/

/-- C1: for every non-empty vendor-name list, when the API key resolves and
the anchor-point geocoding succeeds, `find_vendor_contacts` returns a
mapping whose key set is exactly the set of input names (no extra, no
missing keys), and every key maps to a `VendorContact` whose `name` equals
that key — including names whose lookup totally failed. -/
theorem find_contacts_total_mapping (env : Env) (names : List String)
    (loc gkey : Option String) (pt : Coords)
    (hne : names ≠ [])
    (hkey : truthy (resolveApiKey env gkey) = true)
    (hgeo : env.geocode (loc.getD "New Albany, Indiana, United States") = some pt) :
    ∃ m, find_vendor_contacts env names loc gkey = Except.ok m ∧
      (∀ j, j ∈ m.map Prod.fst ↔ j ∈ names) ∧
      (∀ q ∈ m, (q.2).name = q.1) := by
  refine ⟨buildResults env names, ?_, ?_, ?_⟩
  · rw [find_vendor_contacts, if_pos hkey, hgeo]
  · intro j
    rw [buildResults, mem_keys_buildAux env j names []]
    simp
  · exact name_buildAux env names [] (by simp)

/-- Witness for C1 on the two-name sample batch (one full success, one
search-stage failure). -/
theorem find_contacts_total_mapping_witness :
    ∃ m, find_vendor_contacts envEx ["Acme", "Beta"] none none = Except.ok m ∧
      (∀ j, j ∈ m.map Prod.fst ↔ j ∈ ["Acme", "Beta"]) ∧
      (∀ q ∈ m, (q.2).name = q.1) :=
  find_contacts_total_mapping envEx ["Acme", "Beta"] none none { lat := 38, lng := -85 }
    (by decide) (by decide) rfl

/-- C2: a failure raised during one name's search or details stage (network
error, parse error, missing `place_id`) is caught inside that loop
iteration and stored as the empty contact for that name; the batch still
returns a result in which every other input name is mapped to exactly what
its own lookup produces — one failing name never prevents the rest from
being processed. -/
theorem per_vendor_failure_isolation (env : Env) (names : List String)
    (loc gkey : Option String) (pt : Coords) (k : String)
    (hkey : truthy (resolveApiKey env gkey) = true)
    (hgeo : env.geocode (loc.getD "New Albany, Indiana, United States") = some pt)
    (hk : k ∈ names)
    (hfail : stageFailed env k = true) :
    ∃ m, find_vendor_contacts env names loc gkey = Except.ok m ∧
      lookupAssoc m k =
        some { name := k, address := none, phone := none, email := none, website := none } ∧
      (∀ j ∈ names, lookupAssoc m j = some (lookupOne env j)) := by
  have hempty : lookupOne env k =
      { name := k, address := none, phone := none, email := none, website := none } := by
    cases hs : env.search k with
    | raised => simp [lookupOne, hs]
    | items l =>
      simp only [stageFailed, hs] at hfail
      cases l with
      | nil => simp at hfail
      | cons item rest =>
        cases hpid : item.place_id with
        | none => simp [lookupOne, hs, hpid]
        | some pid =>
          simp only [hpid] at hfail
          cases hd : env.details pid with
          | raised => simp [lookupOne, hs, hpid, hd]
          | result a p w => simp [hd] at hfail
  refine ⟨buildResults env names, ?_, ?_, ?_⟩
  · rw [find_vendor_contacts, if_pos hkey, hgeo]
  · rw [buildResults, lookup_buildAux env k names [] (Or.inl hk), hempty]
  · intro j hj
    exact lookup_buildAux env j names [] (Or.inl hj)

/-- Witness for C2: `"Beta"` raises at the search stage in the sample
world, is stored as the empty contact, and `"Acme"` is still fully
resolved. -/
theorem per_vendor_failure_isolation_witness :
    ∃ m, find_vendor_contacts envEx ["Acme", "Beta"] none none = Except.ok m ∧
      lookupAssoc m "Beta" =
        some { name := "Beta", address := none, phone := none, email := none, website := none } ∧
      (∀ j ∈ ["Acme", "Beta"], lookupAssoc m j = some (lookupOne envEx j)) :=
  per_vendor_failure_isolation envEx ["Acme", "Beta"] none none { lat := 38, lng := -85 }
    "Beta" (by decide) rfl (by decide) (by decide)

/-! ## C9: rows with falsy company names pass through untouched -/

theorem mem_insertSorted (x j : String) : ∀ l, j ∈ insertSorted x l ↔ j = x ∨ j ∈ l
  | [] => by simp [insertSorted]
  | y :: ys => by
    rw [insertSorted]
    by_cases h : x ≤ y
    · simp only [if_pos h, List.mem_cons]
    · simp only [if_neg h, List.mem_cons, mem_insertSorted x j ys]
      tauto

theorem mem_pySorted (j : String) : ∀ l, j ∈ pySorted l ↔ j ∈ l
  | [] => Iff.rfl
  | x :: xs => by
    show j ∈ insertSorted x (pySorted xs) ↔ j ∈ x :: xs
    rw [mem_insertSorted, mem_pySorted j xs]
    simp

theorem mem_companyNames (rows : List Row) (j : String) :
    j ∈ companyNames rows ↔ ∃ r ∈ rows, truthy r.company = true ∧ r.company = some j := by
  rw [companyNames, mem_pySorted, List.mem_dedup, List.mem_filterMap]
  constructor
  · rintro ⟨r, hr, hcase⟩
    by_cases h : truthy r.company = true
    · rw [if_pos h] at hcase
      exact ⟨r, hr, h, hcase⟩
    · rw [if_neg h] at hcase
      exact absurd hcase (by simp)
  · rintro ⟨r, hr, ht, hc⟩
    refine ⟨r, hr, ?_⟩
    rw [if_pos ht]
    exact hc

theorem companyNames_truthy (rows : List Row) (j : String)
    (h : j ∈ companyNames rows) : j ≠ "" := by
  obtain ⟨r, _, ht, hc⟩ := (mem_companyNames rows j).mp h
  rw [hc] at ht
  simpa [truthy] using ht

/-- C9 (implicit): a row whose `company` cell is empty or missing is
excluded from the deduplicated name list sent to the batch lookup (so no
API request is issued for it), and — because no contact exists under its
key — both merge branches are skipped, so the row reaches the output with
every field exactly equal to its input value. -/
theorem falsy_company_row_untouched (env : Env) (rows : List Row) (r : Row)
    (hr : r ∈ rows) (hco : truthy r.company = false) :
    (∀ s, r.company = some s → s ∉ companyNames rows) ∧
    (∀ contacts, find_vendor_contacts env (companyNames rows) none none = Except.ok contacts →
      process_rows env rows = Except.ok (rows.map (mergeRow contacts)) ∧
      mergeRow contacts r = r) := by
  have hnotmem : ∀ s, r.company = some s → s ∉ companyNames rows := by
    intro s hcs hmem
    have hne := companyNames_truthy rows s hmem
    rw [hcs] at hco
    simp only [truthy, Bool.not_eq_false', beq_iff_eq] at hco
    exact hne hco
  refine ⟨hnotmem, ?_⟩
  intro contacts hfind
  have hproc : process_rows env rows = Except.ok (rows.map (mergeRow contacts)) := by
    rw [process_rows, hfind]
  refine ⟨hproc, ?_⟩
  cases hc : r.company with
  | none => simp [mergeRow, hc]
  | some s =>
    have hcontacts : contacts = buildResults env (companyNames rows) := by
      rw [find_vendor_contacts, if_pos ?_] at hfind
      · simp only [Option.getD_none] at hfind
        cases hgeo : env.geocode "New Albany, Indiana, United States" with
        | none =>
          rw [hgeo] at hfind
          exact absurd hfind (by simp)
        | some pt =>
          rw [hgeo] at hfind
          exact (Except.ok.inj hfind).symm
      · by_contra hkey
        rw [if_neg hkey] at hfind
        exact absurd hfind (by simp)
    have hsnot : s ∉ (buildResults env (companyNames rows)).map Prod.fst := by
      intro hmem
      have h' := (mem_keys_buildAux env s (companyNames rows) []).mp hmem
      simp only [List.map_nil, List.not_mem_nil, false_or] at h'
      exact hnotmem s hc h'
    have hnone : lookupAssoc contacts s = none := by
      rw [hcontacts]
      exact lookupAssoc_eq_none _ s hsnot
    simp [mergeRow, hc, hnone]

/-- The contact mapping produced by the sample world for the two-row sample
batch (only `"Acme"` is a truthy company name). -/
def contactsEx : List (String × VendorContact) :=
  buildResults envEx (companyNames [rowEx, rowEmptyCo])

/-- Witness for C9: the empty-company sample row survives the merge
completely unchanged. -/
theorem falsy_company_row_untouched_witness :
    mergeRow contactsEx rowEmptyCo = rowEmptyCo :=
  ((falsy_company_row_untouched envEx [rowEx, rowEmptyCo] rowEmptyCo (by decide)
    (by decide)).2 contactsEx rfl).2

end VendorLocator
